import Mathlib

/-!
Timetable Assignment Engine — shallow embedding and verification.

This file embeds the timetable assignment engine of `src/Thesis/src/app.py`
(the `_generate_schedule` pass together with its helpers
`_build_professor_slots`, `_next_available_professor_slot`, `_assign_room`
and `_suggest_identifier`) as executable Lean definitions, and proves or
refutes the specification claims about it.

Modelling conventions:
* Python strings are Lean `String`s; all character-level operations are
  performed on `String.data` (the underlying `List Char`) so that every
  definition reduces inside the kernel.  Python compares strings
  lexicographically by code point, which is `charListLt`/`charListLe` below.
* Python `dict` construction by successive insertion (later keys overwrite
  earlier ones) followed by `.get` is modelled by `dictGet` over the
  association list of insertions.
* Python `set` objects are modelled as lists; only membership and insertion
  are used by the source, so list membership / append is an exact model.
* Python `sorted` is a stable ascending sort.  A stable sort by a total
  preorder is extensionally unique, so it is modelled by the structurally
  recursive stable insertion sort `stableSort` (which the kernel can
  evaluate), with sortedness and permutation lemmas proved below.
* `datetime.time` values carry minute resolution; they are modelled as
  minutes since midnight (`Nat`), and `strftime "%H:%M"` as `timeLabel`.
* Python integers are modelled as `Int` where the source stores parsed
  numeric fields (capacities, semester), and as `Nat` for time arithmetic,
  which the source performs on non-negative `datetime` values only.
-/

/-- Decimal digit character for `n < 10` (mirrors Python integer formatting,
one case per digit so that everything reduces definitionally). -/
def digitChar (n : Nat) : Char :=
  match n with
  | 0 => '0'
  | 1 => '1'
  | 2 => '2'
  | 3 => '3'
  | 4 => '4'
  | 5 => '5'
  | 6 => '6'
  | 7 => '7'
  | 8 => '8'
  | 9 => '9'
  | _ => '*'

/-- Numeric value of a digit character. -/
def digitVal (c : Char) : Nat := c.toNat - 48

/-- Value of a decimal digit string, most significant digit first
(the model of Python `int` applied to a digit string). -/
def digitsVal (l : List Char) : Nat :=
  l.foldl (fun acc c => 10 * acc + digitVal c) 0

/-- Fuel-indexed decimal printer (structural recursion so the kernel can
evaluate it); `fuel` bounds the recursion depth. -/
def natDigitsAux : Nat → Nat → List Char
  | _, 0 => []
  | n, fuel + 1 =>
    if n < 10 then [digitChar n]
    else natDigitsAux (n / 10) fuel ++ [digitChar (n % 10)]

/-- Decimal digit list of `n`, most significant first (model of Python
`str(n)` for non-negative `n`). -/
def natDigits (n : Nat) : List Char := natDigitsAux n (n + 1)

/-- Left-pad a digit list with zeros to width `d`
(the model of Python `f"{n:0{d}d}"` padding). -/
def zeroPad (d : Nat) (l : List Char) : List Char :=
  List.replicate (d - l.length) '0' ++ l

/-- `strftime "%H:%M"` on a time of `m` minutes since midnight. -/
def timeLabel (m : Nat) : String :=
  ⟨zeroPad 2 (natDigits (m / 60)) ++ [':'] ++ zeroPad 2 (natDigits (m % 60))⟩

/-- Python `str.strip()` (whitespace from both ends). -/
def pyStrip (s : String) : String :=
  ⟨((s.data.dropWhile Char.isWhitespace).reverse.dropWhile Char.isWhitespace).reverse⟩

/-- Lexicographic strict comparison of char lists by code point
(Python `str` `<`). -/
def charListLt : List Char → List Char → Bool
  | [], [] => false
  | [], _ :: _ => true
  | _ :: _, [] => false
  | a :: as, b :: bs =>
    if a.toNat < b.toNat then true
    else if b.toNat < a.toNat then false
    else charListLt as bs

/-- Lexicographic non-strict comparison of char lists by code point
(Python `str` `<=`). -/
def charListLe : List Char → List Char → Bool
  | [], _ => true
  | _ :: _, [] => false
  | a :: as, b :: bs =>
    if a.toNat < b.toNat then true
    else if b.toNat < a.toNat then false
    else charListLe as bs

/-- Python string `<`. -/
def strLt (a b : String) : Bool := charListLt a.data b.data

/-- Python string `<=`. -/
def strLe (a b : String) : Bool := charListLe a.data b.data

/-- `Professor` record of the source (office hours as minutes since
midnight). -/
structure Professor where
  prof_id : String
  name : String
  office_start : Nat
  office_end : Nat
deriving DecidableEq, Repr

/-- `Room` record of the source. -/
structure Room where
  number : String
  capacity : Int
  lec_sem : String
deriving DecidableEq, Repr

/-- `Subject` record of the source. -/
structure Subject where
  code : String
  name : String
  subject_type : String
  semester : Int
  format_ : String
  capacity : Int
  professor_id : String
deriving DecidableEq, Repr

/-- `ScheduleEntry` record of the source (one assignment). -/
structure ScheduleEntry where
  schedule_id : String
  subject_code : String
  professor_id : String
  room_number : String
  day : String
  time : String
deriving DecidableEq, Repr

/-- Python `dict` built by inserting the pairs of `l` in order (later keys
overwrite earlier ones) and then queried with `.get k`. -/
def dictGet {α : Type} (l : List (String × α)) (k : String) : Option α :=
  l.foldl (fun acc p => if p.1 = k then some p.2 else acc) none

/-- Does `value` match the anchored pattern `pfx` followed by exactly
`digits` decimal digits (the regex `pfx(\d{digits})$` under `re.match`)? -/
def matchesIdPattern (pfx : String) (digits : Nat) (value : String) : Bool :=
  decide (value.data.take pfx.data.length = pfx.data) &&
  decide ((value.data.drop pfx.data.length).length = digits) &&
  (value.data.drop pfx.data.length).all Char.isDigit

/-- The numeric suffixes extracted by `_suggest_identifier`'s comprehension:
one entry per element of `existing` matching the pattern, in order. -/
def idNumbers (existing : List String) (pfx : String) (digits : Nat) : List Nat :=
  (existing.filter (matchesIdPattern pfx digits)).map
    (fun v => digitsVal (v.data.drop pfx.data.length))

/-- `max(numbers, default=0)` of the extracted suffixes. -/
def maxSuffix (existing : List String) (pfx : String) (digits : Nat) : Nat :=
  (idNumbers existing pfx digits).foldl max 0

/-- `_suggest_identifier` from the source: next identifier
`pfx` + zero-padded `(max + 1)`. -/
def suggestIdentifier (existing : List String) (pfx : String) (digits : Nat) : String :=
  ⟨pfx.data ++ zeroPad digits (natDigits (maxSuffix existing pfx digits + 1))⟩

/-- The fixed weekday list of `_build_professor_slots`. -/
def weekdays : List String := ["Monday", "Tuesday", "Wednesday", "Thursday", "Friday"]

/-- Fuel-indexed model of the `while current + step <= end_dt` loop of
`_build_professor_slots` (one-hour steps, in minutes). -/
def slotTimesAux : Nat → Nat → Nat → List Nat
  | _, _, 0 => []
  | cur, endm, fuel + 1 =>
    if cur + 60 ≤ endm then cur :: slotTimesAux (cur + 60) endm fuel else []

/-- Start times (minutes) of the whole one-hour blocks inside
`[startm, endm)`. -/
def slotTimes (startm endm : Nat) : List Nat := slotTimesAux startm endm endm

/-- `_build_professor_slots` from the source: day-major, time-ascending
(day, "HH:MM") slots of a professor's office-hours window. -/
def buildProfessorSlots (p : Professor) : List (String × String) :=
  if p.office_start ≥ p.office_end then []
  else weekdays.flatMap (fun d =>
    (slotTimes p.office_start p.office_end).map (fun t => (d, timeLabel t)))

/-- `_next_available_professor_slot` from the source: first slot of the list
not consumed by this professor. -/
def nextAvailableProfessorSlot (professor_id : String)
    (slots : List (String × String))
    (used_prof_slots : List (String × String × String)) :
    Option (String × String) :=
  slots.find? (fun s => !decide ((professor_id, s.1, s.2) ∈ used_prof_slots))

/-- Insert `x` into `l` after every element `y` with `le y x` (the insertion
step of a stable ascending sort). -/
def insertSorted {α : Type} (le : α → α → Bool) (x : α) : List α → List α
  | [] => [x]
  | y :: ys => if le y x then y :: insertSorted le x ys else x :: y :: ys

/-- Stable ascending sort (extensionally equal to Python `sorted` for any
total preorder `le`, since stable sorts are unique; structurally recursive
so the kernel can evaluate it). -/
def stableSort {α : Type} (le : α → α → Bool) (l : List α) : List α :=
  l.foldl (fun acc x => insertSorted le x acc) []

/-- The comparison under which `sorted(self.rooms, key=lambda r:
(r.lec_sem, r.capacity, r.number))` sorts: lexicographic on the key triple,
ties broken as equal (stability). -/
def roomLe (a b : Room) : Bool :=
  if a.lec_sem = b.lec_sem then
    if a.capacity = b.capacity then strLe a.number b.number
    else decide (a.capacity < b.capacity)
  else strLt a.lec_sem b.lec_sem

/-- The grouping key `room.lec_sem or "Unspecified"` (Python `or` on a
possibly empty string). -/
def roomGroupKey (r : Room) : String :=
  if r.lec_sem = "" then "Unspecified" else r.lec_sem

/-- One `rooms_by_type.setdefault(key, []).append(room)` step on the
insertion-ordered association list of groups. -/
def addToGroups (gs : List (String × List Room)) (k : String) (r : Room) :
    List (String × List Room) :=
  if gs.any (fun p => p.1 = k) then
    gs.map (fun p => if p.1 = k then (p.1, p.2 ++ [r]) else p)
  else gs ++ [(k, [r])]

/-- The `rooms_by_type` mapping of `_generate_schedule`: rooms sorted by
(lec_sem, capacity, number) and grouped by type, preserving key insertion
order. -/
def buildRoomsByType (rooms : List Room) : List (String × List Room) :=
  (stableSort roomLe rooms).foldl (fun gs r => addToGroups gs (roomGroupKey r) r) []

/-- The `for room_type in candidate_types` loop of `_assign_room`: per
candidate type, prefer rooms with sufficient capacity, else (when no room
of the type has sufficient capacity) all rooms of the type; first room
whose (number, day, time) is unconsumed wins. -/
def tryTypes (required_capacity : Int) (day tim : String)
    (rooms_by_type : List (String × List Room))
    (used : List (String × String × String)) : List String → Option String
  | [] => none
  | t :: rest =>
    let rooms := (dictGet rooms_by_type t).getD []
    if rooms.isEmpty then tryTypes required_capacity day tim rooms_by_type used rest
    else
      let suitable := rooms.filter (fun r => required_capacity ≤ r.capacity)
      let pool := if suitable.isEmpty then rooms else suitable
      match pool.find? (fun r => !decide ((r.number, day, tim) ∈ used)) with
      | some r => some r.number
      | none => tryTypes required_capacity day tim rooms_by_type used rest

/-- The final `for rooms in rooms_by_type.values()` fallback loop of
`_assign_room`: first unconsumed room of any type, in grouping order. -/
def tryAllRooms (day tim : String) (rooms_by_type : List (String × List Room))
    (used : List (String × String × String)) : Option String :=
  ((rooms_by_type.flatMap Prod.snd).find?
    (fun r => !decide ((r.number, day, tim) ∈ used))).map (fun r => r.number)

/-- `_assign_room` from the source.  Returns the room number string
(`""` when no room was found and the entry carried no previous room) paired
with the updated `used_slots` set; the final fallback returns
`current_room` even when `(current_room, day, time)` is already consumed,
exactly as the source does. -/
def assignRoom (entry : ScheduleEntry) (day tim : String)
    (subjects_by_code : List (String × Subject))
    (rooms_by_type : List (String × List Room))
    (used_slots : List (String × String × String)) :
    String × List (String × String × String) :=
  let subj := dictGet subjects_by_code entry.subject_code
  let preferred_type : Option String :=
    match subj with
    | some s => if s.format_ = "" then none else some s.format_
    | none => none
  let required_capacity : Int :=
    match subj with
    | some s => s.capacity
    | none => 0
  let current_room := pyStrip entry.room_number
  if current_room ≠ "" ∧ (current_room, day, tim) ∉ used_slots then
    (current_room, used_slots ++ [(current_room, day, tim)])
  else
    let candidate_types :=
      (rooms_by_type.map Prod.fst).foldl
        (fun acc k => if k ∈ acc then acc else acc ++ [k])
        (match preferred_type with
         | some t => [t]
         | none => [])
    match tryTypes required_capacity day tim rooms_by_type used_slots candidate_types with
    | some rn => (rn, used_slots ++ [(rn, day, tim)])
    | none =>
      match tryAllRooms day tim rooms_by_type used_slots with
      | some rn => (rn, used_slots ++ [(rn, day, tim)])
      | none => (current_room, used_slots)

/-- The mutable state threaded through the per-subject loop of
`_generate_schedule`. -/
structure GenState where
  taken_schedule_ids : List String
  used_prof_slots : List (String × String × String)
  used_room_slots : List (String × String × String)
  new_entries : List ScheduleEntry
  skipped_no_slot : List String
  skipped_no_room : List String
deriving DecidableEq, Repr

/-- Lines 802-813 of the source: fetch the previous entry for this subject
(creating a fresh one when absent), ensure it has a schedule id (allocating
one via `_suggest_identifier` when missing, and recording it in
`taken_schedule_ids`), and overwrite subject code / professor id. -/
def makeEntry (existing_entries : List (String × ScheduleEntry))
    (taken : List String) (subject : Subject) (professor : Professor) :
    ScheduleEntry × List String :=
  match dictGet existing_entries subject.code with
  | none =>
    let schedule_id := suggestIdentifier taken "SCH" 3
    ({ schedule_id := schedule_id, subject_code := subject.code,
       professor_id := professor.prof_id, room_number := "",
       day := "", time := "" },
     taken ++ [schedule_id])
  | some e =>
    if e.schedule_id = "" then
      let schedule_id := suggestIdentifier taken "SCH" 3
      ({ e with
          schedule_id := schedule_id, subject_code := subject.code,
          professor_id := professor.prof_id },
       taken ++ [schedule_id])
    else
      ({ e with
          subject_code := subject.code,
          professor_id := professor.prof_id },
       taken)

/-- Lines 815-825 of the source: keep the previous (day, time) pair when it
is non-empty, unconsumed by this professor, and inside the professor's
availability set; otherwise take the first unconsumed slot of the
availability sequence. -/
def resolveSlot (professor_slots : List (String × List (String × String)))
    (used_prof_slots : List (String × String × String))
    (professor : Professor) (entry : ScheduleEntry) :
    Option (String × String) :=
  let lookup := (dictGet professor_slots professor.prof_id).getD []
  let preferredKept : Option (String × String) :=
    if entry.day ≠ "" ∧ entry.time ≠ "" ∧
       (professor.prof_id, entry.day, entry.time) ∉ used_prof_slots ∧
       (entry.day, entry.time) ∈ lookup
    then some (entry.day, entry.time) else none
  match preferredKept with
  | some s => some s
  | none => nextAvailableProfessorSlot professor.prof_id lookup used_prof_slots

/-- One iteration of the `for subject, professor in eligible_subjects` loop
of `_generate_schedule`.  `professor_slots` doubles as
`professor_slot_lookup`: the source's set holds exactly the elements of the
list, and only membership is tested on it. -/
def stepSubject (professor_slots : List (String × List (String × String)))
    (existing_entries : List (String × ScheduleEntry))
    (subjects_by_code : List (String × Subject))
    (rooms_by_type : List (String × List Room))
    (st : GenState) (sp : Subject × Professor) : GenState :=
  let subject := sp.1
  let professor := sp.2
  let slots_for_prof := (dictGet professor_slots professor.prof_id).getD []
  if slots_for_prof.isEmpty then
    { st with skipped_no_slot := st.skipped_no_slot ++ [subject.code] }
  else
    let entryTaken := makeEntry existing_entries st.taken_schedule_ids subject professor
    let entry := entryTaken.1
    let taken1 := entryTaken.2
    match resolveSlot professor_slots st.used_prof_slots professor entry with
    | none =>
      { st with
        taken_schedule_ids := taken1,
        skipped_no_slot := st.skipped_no_slot ++ [subject.code] }
    | some (day, tim) =>
      let tentative : ScheduleEntry :=
        { schedule_id := entry.schedule_id, subject_code := entry.subject_code,
          professor_id := professor.prof_id, room_number := entry.room_number,
          day := day, time := tim }
      let rr := assignRoom tentative day tim subjects_by_code rooms_by_type
        st.used_room_slots
      if rr.1 = "" then
        { st with
            taken_schedule_ids := taken1, used_room_slots := rr.2,
            skipped_no_room := st.skipped_no_room ++ [subject.code] }
      else
        { st with
            taken_schedule_ids := taken1, used_room_slots := rr.2,
            used_prof_slots := st.used_prof_slots ++ [(professor.prof_id, day, tim)],
            new_entries := st.new_entries ++
              [{ entry with
                  professor_id := professor.prof_id, day := day,
                  time := tim, room_number := rr.1 }] }

/-- The eligibility filter of `_generate_schedule` (lines 763-770): a
subject is eligible when its professor id is non-empty and resolves in
`professors_by_id`; it returns (eligible (subject, professor) pairs,
`skipped_no_prof` codes), both in subject order. -/
def eligStep (professors_by_id : List (String × Professor))
    (acc : List (Subject × Professor) × List String) (s : Subject) :
    List (Subject × Professor) × List String :=
  match dictGet professors_by_id s.professor_id with
  | some p =>
    if s.professor_id = "" then (acc.1, acc.2 ++ [s.code])
    else (acc.1 ++ [(s, p)], acc.2)
  | none => (acc.1, acc.2 ++ [s.code])

/-- The eligibility filter as a fold of `eligStep` over the subjects. -/
def eligiblePairs (subjects : List Subject) (professors : List Professor) :
    List (Subject × Professor) × List String :=
  subjects.foldl (eligStep (professors.map (fun p => (p.prof_id, p)))) ([], [])

/-- The initial loop state of `_generate_schedule`: previously used,
non-empty schedule ids; empty consumption sets and outputs. -/
def initState (schedule_entries : List ScheduleEntry) : GenState :=
  { taken_schedule_ids :=
      (schedule_entries.map (fun e => e.schedule_id)).filter (fun s => ¬(s = "")),
    used_prof_slots := [], used_room_slots := [], new_entries := [],
    skipped_no_slot := [], skipped_no_room := [] }

/-- The whole per-subject pass of `_generate_schedule` (lines 776-851),
folding `stepSubject` over the eligible subjects. -/
def runPass (subjects : List Subject) (professors : List Professor)
    (rooms : List Room) (schedule_entries : List ScheduleEntry) : GenState :=
  let professor_slots := professors.map (fun p => (p.prof_id, buildProfessorSlots p))
  let existing_entries := schedule_entries.map (fun e => (e.subject_code, e))
  let subjects_by_code := subjects.map (fun s => (s.code, s))
  let rooms_by_type := buildRoomsByType rooms
  ((eligiblePairs subjects professors).1).foldl
    (stepSubject professor_slots existing_entries subjects_by_code rooms_by_type)
    (initState schedule_entries)

/-- The structural (whole-run) failure conditions of `_generate_schedule`;
the source shows a validation error and returns without output for each. -/
inductive StructuralError where
  | noSubjects
  | noProfessors
  | noRooms
  | noEligibleSubjects
  | noAssignments
deriving DecidableEq, Repr

/-- The successful output of `_generate_schedule`: the new entry list and
the three skip buckets. -/
structure ScheduleResult where
  entries : List ScheduleEntry
  skipped_no_prof : List String
  skipped_no_slot : List String
  skipped_no_room : List String
deriving DecidableEq, Repr

/-- Ascending comparison on assignment identifiers
(`key=lambda entry: entry.schedule_id`). -/
def entryIdLe (a b : ScheduleEntry) : Bool := strLe a.schedule_id b.schedule_id

/-- `_generate_schedule` from the source: structural precondition checks,
the per-subject pass, and the final sort of the new entries by schedule id. -/
def generateSchedule (subjects : List Subject) (professors : List Professor)
    (rooms : List Room) (schedule_entries : List ScheduleEntry) :
    Except StructuralError ScheduleResult :=
  if subjects.isEmpty then .error .noSubjects
  else if professors.isEmpty then .error .noProfessors
  else if rooms.isEmpty then .error .noRooms
  else if ((eligiblePairs subjects professors).1).isEmpty then
    .error .noEligibleSubjects
  else
    let final := runPass subjects professors rooms schedule_entries
    if final.new_entries.isEmpty then .error .noAssignments
    else .ok
      { entries := stableSort entryIdLe final.new_entries,
        skipped_no_prof := (eligiblePairs subjects professors).2,
        skipped_no_slot := final.skipped_no_slot,
        skipped_no_room := final.skipped_no_room }

/-! ## Concrete scenarios used by the claim theorems and witnesses -/

/-- A professor with office hours 09:00-10:00 (id `P1`). -/
def profP1 : Professor :=
  { prof_id := "P1", name := "Alice", office_start := 540, office_end := 600 }

/-- A second professor with office hours 09:00-10:00 (id `P2`). -/
def profP2 : Professor :=
  { prof_id := "P2", name := "Bob", office_start := 540, office_end := 600 }

/-- The single lecture room of the double-booking scenario. -/
def roomR1 : Room := { number := "R1", capacity := 30, lec_sem := "Lecture" }

/-- A subject of professor `P1`. -/
def subjA : Subject :=
  { code := "A", name := "Algo", subject_type := "Core", semester := 1,
    format_ := "Lecture", capacity := 10, professor_id := "P1" }

/-- A subject of professor `P2`. -/
def subjB : Subject :=
  { code := "B", name := "Bio", subject_type := "Core", semester := 1,
    format_ := "Lecture", capacity := 10, professor_id := "P2" }

/-- The previous assignment of subject `B`: Monday 09:00 in room `R1`. -/
def prevB : ScheduleEntry :=
  { schedule_id := "SCH001", subject_code := "B", professor_id := "P2",
    room_number := "R1", day := "Monday", time := "09:00" }

/-- The output entry the engine produces for subject `A` in the
double-booking scenario. -/
def entryAout : ScheduleEntry :=
  { schedule_id := "SCH002", subject_code := "A", professor_id := "P1",
    room_number := "R1", day := "Monday", time := "09:00" }

/-- The output entry the engine produces for subject `B` in the
double-booking scenario. -/
def entryBout : ScheduleEntry :=
  { schedule_id := "SCH001", subject_code := "B", professor_id := "P2",
    room_number := "R1", day := "Monday", time := "09:00" }

/-- The tentative entry `_assign_room` receives for subject `B` in the
double-booking scenario (previous room `R1`, resolved slot Monday 09:00). -/
def tentB : ScheduleEntry :=
  { schedule_id := "SCH001", subject_code := "B", professor_id := "P2",
    room_number := "R1", day := "Monday", time := "09:00" }

/-- Consumed room slots after subject `A` was placed: room `R1` is taken at
Monday 09:00. -/
def usedAllC2 : List (String × String × String) := [("R1", "Monday", "09:00")]

/-- `subjects_by_code` of the double-booking scenario. -/
def sbcC2 : List (String × Subject) := [("A", subjA), ("B", subjB)]

/-- `rooms_by_type` of the double-booking scenario. -/
def rbtC2 : List (String × List Room) := buildRoomsByType [roomR1]

/-- Type-`T` room, capacity 10 (below the requirement of `subjC4`). -/
def roomTA : Room := { number := "A", capacity := 10, lec_sem := "T" }

/-- Type-`T` room, capacity 30 (meets the requirement of `subjC4`). -/
def roomTB : Room := { number := "Bb", capacity := 30, lec_sem := "T" }

/-- Type-`U` room, capacity 5. -/
def roomUC : Room := { number := "Cc", capacity := 5, lec_sem := "U" }

/-- A subject requiring type `T`, capacity 20. -/
def subjC4 : Subject :=
  { code := "S", name := "s", subject_type := "x", semester := 1,
    format_ := "T", capacity := 20, professor_id := "P1" }

/-- An entry with no previous room for the type-fallback scenario. -/
def entryC4 : ScheduleEntry :=
  { schedule_id := "SCH001", subject_code := "S", professor_id := "P1",
    room_number := "", day := "", time := "" }

/-- `rooms_by_type` of the type-fallback scenario. -/
def rbtC4 : List (String × List Room) := buildRoomsByType [roomUC, roomTB, roomTA]

/-- Consumed room slots of the type-fallback scenario: the only
capacity-sufficient type-`T` room is taken. -/
def usedC4 : List (String × String × String) := [("Bb", "Monday", "09:00")]

/-- Type-`T` room of capacity 20 (the smallest sufficient room of the
capacity-preference scenario). -/
def roomSmall : Room := { number := "S1", capacity := 20, lec_sem := "T" }

/-- Type-`T` room of capacity 100. -/
def roomBig : Room := { number := "B1", capacity := 100, lec_sem := "T" }

/-- A subject requiring type `T`, capacity 10. -/
def subjC5 : Subject :=
  { code := "S", name := "s", subject_type := "x", semester := 1,
    format_ := "T", capacity := 10, professor_id := "P1" }

/-- An entry whose previous room is the large room `B1`. -/
def entryC5 : ScheduleEntry :=
  { schedule_id := "SCH001", subject_code := "S", professor_id := "P1",
    room_number := "B1", day := "", time := "" }

/-- The same entry with no previous room (for the amended statement's
witness). -/
def entryC5b : ScheduleEntry :=
  { schedule_id := "SCH001", subject_code := "S", professor_id := "P1",
    room_number := "", day := "", time := "" }

/-- `subjects_by_code` of the capacity-preference scenario. -/
def sbcC5 : List (String × Subject) := [("S", subjC5)]

/-- `rooms_by_type` of the capacity-preference scenario. -/
def rbtC5 : List (String × List Room) := buildRoomsByType [roomSmall, roomBig]

/-- Professor of the ghost-room scenario. -/
def profG : Professor :=
  { prof_id := "P1", name := "A", office_start := 540, office_end := 600 }

/-- Subject of the ghost-room scenario. -/
def subjG : Subject :=
  { code := "G", name := "g", subject_type := "x", semester := 1,
    format_ := "Lecture", capacity := 10, professor_id := "P1" }

/-- Room snapshot of the ghost-room scenario (no room named `GHOST`). -/
def roomG : Room := { number := "R1", capacity := 30, lec_sem := "Lecture" }

/-- Previous assignment referencing the nonexistent room `GHOST`. -/
def prevG : ScheduleEntry :=
  { schedule_id := "SCH001", subject_code := "G", professor_id := "P1",
    room_number := "GHOST", day := "Monday", time := "09:00" }

/-- The output entry of the ghost-room scenario: the nonexistent room
number is retained. -/
def entryGout : ScheduleEntry :=
  { schedule_id := "SCH001", subject_code := "G", professor_id := "P1",
    room_number := "GHOST", day := "Monday", time := "09:00" }

/-- Professor of the witness scenario for the structural-failure claim. -/
def profW : Professor :=
  { prof_id := "PW", name := "W", office_start := 540, office_end := 600 }

/-- Subject of the witness scenario for the structural-failure claim. -/
def subjW : Subject :=
  { code := "W", name := "w", subject_type := "x", semester := 1,
    format_ := "Lecture", capacity := 10, professor_id := "PW" }

/-- Room of the witness scenario for the structural-failure claim. -/
def roomW : Room := { number := "RW", capacity := 30, lec_sem := "Lecture" }

/-- The output of the structural-failure witness run. -/
def resW : ScheduleResult :=
  { entries := [{ schedule_id := "SCH001", subject_code := "W",
                  professor_id := "PW", room_number := "RW",
                  day := "Monday", time := "09:00" }],
    skipped_no_prof := [], skipped_no_slot := [], skipped_no_room := [] }

/-- Professor-slot pool of the room-skip witness scenario. -/
def psC8 : List (String × List (String × String)) := [("P1", [("Monday", "09:00")])]

/-- A subject of professor `P1` for the room-skip witness scenario. -/
def subjX : Subject :=
  { code := "X", name := "x", subject_type := "x", semester := 1,
    format_ := "Lecture", capacity := 10, professor_id := "P1" }

/-- The empty loop state for the room-skip witness scenario. -/
def stC8 : GenState :=
  { taken_schedule_ids := [], used_prof_slots := [], used_room_slots := [],
    new_entries := [], skipped_no_slot := [], skipped_no_room := [] }

/-- The single-entry output of the validity-invariant witness run. -/
def resC9 : ScheduleResult :=
  { entries := [{ schedule_id := "SCH001", subject_code := "W",
                  professor_id := "PW", room_number := "RW",
                  day := "Monday", time := "09:00" }],
    skipped_no_prof := [], skipped_no_slot := [], skipped_no_room := [] }

/-- The validity invariant the engine maintains for every output entry:
a non-empty professor id resolving to a snapshot professor whose generated
availability contains the entry's slot, and a snapshot subject whose code
and professor link match the entry. -/
def EntryInv (subjects : List Subject) (professors : List Professor)
    (e : ScheduleEntry) : Prop :=
  e.professor_id ≠ "" ∧
  (∃ p ∈ professors, p.prof_id = e.professor_id ∧
    (e.day, e.time) ∈ buildProfessorSlots p) ∧
  (∃ s ∈ subjects, s.code = e.subject_code ∧ s.professor_id = e.professor_id)

/-! ## Digit-printing lemmas (for the identifier allocator) -/

/-- On digits, `digitVal` inverts `digitChar`. -/
theorem digitVal_digitChar {n : Nat} (h : n < 10) : digitVal (digitChar n) = n := by
  interval_cases n <;> rfl

/-- `digitChar` produces decimal digit characters. -/
theorem isDigit_digitChar {n : Nat} (h : n < 10) : (digitChar n).isDigit = true := by
  interval_cases n <;> rfl

/-- Appending one digit multiplies the value by ten and adds the digit. -/
theorem digitsVal_concat (l : List Char) (c : Char) :
    digitsVal (l ++ [c]) = 10 * digitsVal l + digitVal c := by
  simp [digitsVal, List.foldl_append]

/-- A leading zero does not change the value of a digit string. -/
theorem digitsVal_cons_zero (l : List Char) : digitsVal ('0' :: l) = digitsVal l := by
  have h : (10 * 0 + digitVal '0') = 0 := rfl
  simp only [digitsVal, List.foldl_cons, h]

/-- Leading zeros do not change the value of a digit string. -/
theorem digitsVal_replicate_zero (k : Nat) (l : List Char) :
    digitsVal (List.replicate k '0' ++ l) = digitsVal l := by
  induction k with
  | zero => simp
  | succ n ih =>
    rw [List.replicate_succ, List.cons_append, digitsVal_cons_zero]
    exact ih

/-- Zero padding does not change the value of a digit string. -/
theorem digitsVal_zeroPad (d : Nat) (l : List Char) :
    digitsVal (zeroPad d l) = digitsVal l := by
  simp [zeroPad, digitsVal_replicate_zero]

/-- Correctness of the fuel-indexed decimal printer: value, digit-only
characters, non-emptiness, and the length bound from an upper bound on `n`. -/
theorem natDigitsAux_spec :
    ∀ fuel n : Nat, n < fuel →
      digitsVal (natDigitsAux n fuel) = n ∧
      (natDigitsAux n fuel).all Char.isDigit = true ∧
      natDigitsAux n fuel ≠ [] ∧
      ∀ d : Nat, n < 10 ^ d → 1 ≤ d → (natDigitsAux n fuel).length ≤ d := by
  intro fuel
  induction fuel with
  | zero => intro n h; omega
  | succ m ih =>
    intro n h
    by_cases h10 : n < 10
    · refine ⟨?_, ?_, ?_, ?_⟩
      · simp [natDigitsAux, h10, digitsVal, digitVal_digitChar h10]
      · simp [natDigitsAux, h10, isDigit_digitChar h10]
      · simp [natDigitsAux, h10]
      · intro d _ hd
        have hone : natDigitsAux n (m + 1) = [digitChar n] := by
          simp [natDigitsAux, h10]
        rw [hone]
        simp only [List.length_cons, List.length_nil]
        omega
    · have hrec : n / 10 < m := by omega
      obtain ⟨hval, hdig, hne, hlen⟩ := ih (n / 10) hrec
      have hstep : natDigitsAux n (m + 1) =
          natDigitsAux (n / 10) m ++ [digitChar (n % 10)] := by
        simp [natDigitsAux, h10]
      refine ⟨?_, ?_, ?_, ?_⟩
      · rw [hstep, digitsVal_concat, hval, digitVal_digitChar (Nat.mod_lt n (by omega))]
        omega
      · rw [hstep, List.all_append]
        simp [hdig, isDigit_digitChar (Nat.mod_lt n (by omega))]
      · rw [hstep]; simp
      · intro d hpow hd
        rw [hstep, List.length_append]
        have hd2 : 2 ≤ d := by
          by_contra hlt
          have : d = 1 := by omega
          subst this
          simp at hpow
          omega
        have hdiv : n / 10 < 10 ^ (d - 1) := by
          have h1 : 10 ^ d = 10 ^ (d - 1) * 10 := by
            rw [← pow_succ]
            congr 1
            omega
          rw [Nat.div_lt_iff_lt_mul (by omega)]
          omega
        have := hlen (d - 1) hdiv (by omega)
        simp only [List.length_cons, List.length_nil]
        omega

/-- `digitsVal` inverts `natDigits`. -/
theorem digitsVal_natDigits (n : Nat) : digitsVal (natDigits n) = n :=
  (natDigitsAux_spec (n + 1) n (by omega)).1

/-- `natDigits` produces only decimal digits. -/
theorem natDigits_all_digit (n : Nat) : (natDigits n).all Char.isDigit = true :=
  (natDigitsAux_spec (n + 1) n (by omega)).2.1

/-- `natDigits n` has at most `d` digits when `n < 10 ^ d` (for `d ≥ 1`). -/
theorem natDigits_length_le {n d : Nat} (h1 : n < 10 ^ d) (h2 : 1 ≤ d) :
    (natDigits n).length ≤ d :=
  (natDigitsAux_spec (n + 1) n (by omega)).2.2.2 d h1 h2

/-- Zero padding reaches exactly width `d` when the digits fit. -/
theorem zeroPad_length {d : Nat} {l : List Char} (h : l.length ≤ d) :
    (zeroPad d l).length = d := by
  simp [zeroPad]
  omega

/-- Zero padding preserves the digit-only property. -/
theorem zeroPad_all_digit {d : Nat} {l : List Char}
    (h : l.all Char.isDigit = true) : (zeroPad d l).all Char.isDigit = true := by
  simp only [zeroPad, List.all_append, Bool.and_eq_true]
  refine ⟨?_, h⟩
  rw [List.all_eq_true]
  intro c hc
  rw [List.eq_of_mem_replicate hc]
  rfl

/-! ## Fold and lookup lemmas -/

/-- The initial accumulator bounds a `foldl max`. -/
theorem le_foldl_max (l : List Nat) (b : Nat) : b ≤ l.foldl max b := by
  induction l generalizing b with
  | nil => simp
  | cons a l ih => exact le_trans (Nat.le_max_left b a) (ih (max b a))

/-- Every member of the list bounds its `foldl max`. -/
theorem mem_le_foldl_max {l : List Nat} {a : Nat} (h : a ∈ l) (b : Nat) :
    a ≤ l.foldl max b := by
  induction l generalizing b with
  | nil => cases h
  | cons c l ih =>
    rcases List.mem_cons.mp h with rfl | h'
    · exact le_trans (Nat.le_max_right b a) (le_foldl_max l (max b a))
    · exact ih h' (max b c)

/-- A successful `dictGet` comes from a pair actually in the list. -/
theorem dictGet_eq_some_mem {α : Type} {l : List (String × α)} {k : String}
    {v : α} (h : dictGet l k = some v) : (k, v) ∈ l := by
  suffices haux : ∀ (l : List (String × α)) (acc : Option α),
      l.foldl (fun acc p => if p.1 = k then some p.2 else acc) acc = some v →
      acc = some v ∨ (k, v) ∈ l by
    rcases haux l none h with h' | h'
    · cases h'
    · exact h'
  intro l
  induction l with
  | nil => intro acc h'; exact Or.inl h'
  | cons p t ih =>
    intro acc h'
    rw [List.foldl_cons] at h'
    rcases ih _ h' with h'' | h''
    · by_cases hk : p.1 = k
      · simp only [hk, if_true, eq_self_iff_true, Option.some.injEq] at h''
        right
        have hp : (k, v) = p := by
          rw [← hk, ← h'']
        rw [hp]
        exact List.mem_cons_self _ _
      · simp only [hk, if_false] at h''
        exact Or.inl h''
    · exact Or.inr (List.mem_cons_of_mem p h'')

/-- A successful `dictGet` on a mapped key-value list comes from a source
element with the queried key. -/
theorem dictGet_map_eq_some {α β : Type} {f : α → String} {g : α → β}
    {l : List α} {k : String} {v : β}
    (h : dictGet (l.map (fun a => (f a, g a))) k = some v) :
    ∃ a ∈ l, f a = k ∧ g a = v := by
  have hmem := dictGet_eq_some_mem h
  rw [List.mem_map] at hmem
  obtain ⟨a, ha, heq⟩ := hmem
  exact ⟨a, ha, congrArg Prod.fst heq, congrArg Prod.snd heq⟩

/-- A generic invariant-propagation principle for `List.foldl`. -/
theorem foldl_induction {α β : Type} {P : β → Prop} {Q : α → Prop}
    (f : β → α → β) (l : List α)
    (hstep : ∀ b a, Q a → P b → P (f b a)) :
    ∀ b0 : β, (∀ a ∈ l, Q a) → P b0 → P (l.foldl f b0) := by
  induction l with
  | nil => intro b0 _ h0; exact h0
  | cons a t ih =>
    intro b0 hl h0
    rw [List.foldl_cons]
    exact ih (f b0 a) (fun x hx => hl x (List.mem_cons_of_mem a hx))
      (hstep b0 a (hl a (List.mem_cons_self a t)) h0)

/-! ## Stable sort: permutation and sortedness -/

/-- Inserting an element yields a permutation of consing it. -/
theorem insertSorted_perm {α : Type} (le : α → α → Bool) (x : α) (l : List α) :
    (insertSorted le x l).Perm (x :: l) := by
  induction l with
  | nil => exact List.Perm.refl _
  | cons y ys ih =>
    by_cases h : le y x
    · rw [insertSorted, if_pos h]
      exact (ih.cons y).trans (List.Perm.swap x y ys)
    · rw [insertSorted, if_neg h]

/-- The stable sort permutes its input. -/
theorem stableSort_perm {α : Type} (le : α → α → Bool) (l : List α) :
    (stableSort le l).Perm l := by
  suffices haux : ∀ (l acc : List α),
      (l.foldl (fun acc x => insertSorted le x acc) acc).Perm (acc ++ l) by
    simpa using haux l []
  intro l
  induction l with
  | nil => intro acc; simp
  | cons x xs ih =>
    intro acc
    rw [List.foldl_cons]
    refine (ih (insertSorted le x acc)).trans ?_
    refine (((insertSorted_perm le x acc).append_right xs).trans ?_)
    simpa using List.perm_middle.symm

/-- Insertion preserves sortedness for a total, transitive comparison. -/
theorem insertSorted_pairwise {α : Type} {le : α → α → Bool}
    (htot : ∀ a b, (le a b || le b a) = true)
    (htrans : ∀ a b c, le a b = true → le b c = true → le a c = true)
    {x : α} {l : List α} (hl : l.Pairwise (fun a b => le a b = true)) :
    (insertSorted le x l).Pairwise (fun a b => le a b = true) := by
  induction l with
  | nil => simp [insertSorted]
  | cons y ys ih =>
    rw [List.pairwise_cons] at hl
    obtain ⟨hy, hys⟩ := hl
    by_cases h : le y x
    · rw [insertSorted, if_pos h]
      rw [List.pairwise_cons]
      refine ⟨?_, ih hys⟩
      intro z hz
      have hz2 := (insertSorted_perm le x ys).mem_iff.mp hz
      rcases List.mem_cons.mp hz2 with rfl | hz3
      · exact h
      · exact hy z hz3
    · rw [insertSorted, if_neg h]
      have hxy : le x y = true := by
        have := htot x y
        rcases Bool.or_eq_true_iff.mp this with h' | h'
        · exact h'
        · exact absurd h' h
      rw [List.pairwise_cons]
      refine ⟨?_, List.pairwise_cons.mpr ⟨hy, hys⟩⟩
      intro z hz
      rcases List.mem_cons.mp hz with rfl | hz2
      · exact hxy
      · exact htrans x y z hxy (hy z hz2)

/-- The stable sort sorts, for a total and transitive comparison. -/
theorem stableSort_pairwise {α : Type} {le : α → α → Bool}
    (htot : ∀ a b, (le a b || le b a) = true)
    (htrans : ∀ a b c, le a b = true → le b c = true → le a c = true)
    (l : List α) :
    (stableSort le l).Pairwise (fun a b => le a b = true) := by
  suffices haux : ∀ (l acc : List α),
      acc.Pairwise (fun a b => le a b = true) →
      (l.foldl (fun acc x => insertSorted le x acc) acc).Pairwise
        (fun a b => le a b = true) by
    exact haux l [] (List.Pairwise.nil)
  intro l
  induction l with
  | nil => intro acc h; exact h
  | cons x xs ih =>
    intro acc h
    rw [List.foldl_cons]
    exact ih _ (insertSorted_pairwise htot htrans h)

/-! ## The string comparison is a total preorder -/

/-- `charListLe` is total. -/
theorem charListLe_total : ∀ a b : List Char, (charListLe a b || charListLe b a) = true := by
  intro a
  induction a with
  | nil => intro b; cases b <;> simp [charListLe]
  | cons x xs ih =>
    intro b
    cases b with
    | nil => simp [charListLe]
    | cons y ys =>
      by_cases h1 : x.toNat < y.toNat
      · have h2 : ¬y.toNat < x.toNat := by omega
        simp [charListLe, h1, h2]
      · by_cases h2 : y.toNat < x.toNat
        · simp [charListLe, h1, h2]
        · simp only [charListLe, if_neg h1, if_neg h2]
          exact ih ys

/-- `charListLe` is transitive. -/
theorem charListLe_trans : ∀ a b c : List Char,
    charListLe a b = true → charListLe b c = true → charListLe a c = true := by
  intro a
  induction a with
  | nil => intro b c _ _; cases c <;> simp [charListLe]
  | cons x xs ih =>
    intro b c hab hbc
    cases b with
    | nil => simp [charListLe] at hab
    | cons y ys =>
      cases c with
      | nil => simp [charListLe] at hbc
      | cons z zs =>
        simp only [charListLe] at hab hbc ⊢
        by_cases hxy : x.toNat < y.toNat
        · by_cases hyz : y.toNat < z.toNat
          · have : x.toNat < z.toNat := by omega
            simp [this]
          · by_cases hzy : z.toNat < y.toNat
            · simp [hyz, hzy] at hbc
            · have : x.toNat < z.toNat := by omega
              simp [this]
        · by_cases hyx : y.toNat < x.toNat
          · simp [hxy, hyx] at hab
          · by_cases hyz : y.toNat < z.toNat
            · have h1 : x.toNat < z.toNat := by omega
              simp [h1]
            · by_cases hzy : z.toNat < y.toNat
              · simp [hyz, hzy] at hbc
              · have h1 : ¬x.toNat < z.toNat := by omega
                have h2 : ¬z.toNat < x.toNat := by omega
                simp only [if_neg h1, if_neg h2]
                simp only [if_neg hxy, if_neg hyx] at hab
                simp only [if_neg hyz, if_neg hzy] at hbc
                exact ih ys zs hab hbc

/-- `entryIdLe` is total. -/
theorem entryIdLe_total : ∀ a b : ScheduleEntry, (entryIdLe a b || entryIdLe b a) = true := by
  intro a b
  exact charListLe_total a.schedule_id.data b.schedule_id.data

/-- `entryIdLe` is transitive. -/
theorem entryIdLe_trans : ∀ a b c : ScheduleEntry,
    entryIdLe a b = true → entryIdLe b c = true → entryIdLe a c = true := by
  intro a b c hab hbc
  exact charListLe_trans a.schedule_id.data b.schedule_id.data c.schedule_id.data hab hbc

/-! ## C3: the identifier allocator -/

/-- When `max + 1` fits in `d` digits, the suggested identifier itself
matches the pattern, and its numeric suffix is `max + 1`. -/
theorem suggestIdentifier_matches (existing : List String) (pfx : String) (d : Nat)
    (h : maxSuffix existing pfx d + 1 < 10 ^ d) :
    matchesIdPattern pfx d (suggestIdentifier existing pfx d) = true ∧
    digitsVal ((suggestIdentifier existing pfx d).data.drop pfx.data.length) =
      maxSuffix existing pfx d + 1 := by
  have hd : 1 ≤ d := by
    rcases Nat.eq_zero_or_pos d with rfl | hd
    · simp at h
    · exact hd
  have hdata : (suggestIdentifier existing pfx d).data =
      pfx.data ++ zeroPad d (natDigits (maxSuffix existing pfx d + 1)) := rfl
  have hlen : (zeroPad d (natDigits (maxSuffix existing pfx d + 1))).length = d :=
    zeroPad_length (natDigits_length_le h hd)
  have hdrop : (suggestIdentifier existing pfx d).data.drop pfx.data.length =
      zeroPad d (natDigits (maxSuffix existing pfx d + 1)) := by
    rw [hdata, List.drop_left]
  have hall : (zeroPad d (natDigits (maxSuffix existing pfx d + 1))).all
      Char.isDigit = true :=
    zeroPad_all_digit (natDigits_all_digit _)
  constructor
  · unfold matchesIdPattern
    rw [hdrop, hdata, List.take_left]
    simp [hlen, hall]
  · rw [hdrop, digitsVal_zeroPad, digitsVal_natDigits]

/-- C3 (amended): `_suggest_identifier` returns the prefix concatenated
with `max + 1` zero-padded to `digit_width`, and this identifier is absent
from `existing` provided `max + 1` still fits in `digit_width` digits. -/
theorem suggestIdentifier_fresh_unless_overflow (existing : List String)
    (pfx : String) (d : Nat)
    (h : maxSuffix existing pfx d + 1 < 10 ^ d) :
    suggestIdentifier existing pfx d =
      ⟨pfx.data ++ zeroPad d (natDigits (maxSuffix existing pfx d + 1))⟩ ∧
    suggestIdentifier existing pfx d ∉ existing := by
  refine ⟨rfl, ?_⟩
  intro hmem
  obtain ⟨hm, hval⟩ := suggestIdentifier_matches existing pfx d h
  have hfil : suggestIdentifier existing pfx d ∈
      existing.filter (matchesIdPattern pfx d) :=
    List.mem_filter.mpr ⟨hmem, hm⟩
  have hnum : maxSuffix existing pfx d + 1 ∈ idNumbers existing pfx d := by
    rw [← hval]
    exact List.mem_map_of_mem _ hfil
  have hle := mem_le_foldl_max hnum 0
  have : maxSuffix existing pfx d + 1 ≤ maxSuffix existing pfx d := hle
  omega

/-- Witness for the amended C3 at a concrete input. -/
theorem suggestIdentifier_fresh_witness :
    suggestIdentifier ["SCH001"] "SCH" 3 ∉ ["SCH001"] :=
  (suggestIdentifier_fresh_unless_overflow ["SCH001"] "SCH" 3 (by decide)).2

/-- C3 counterexample: with `existing = ["SCH999", "SCH1000"]` the maximum
matching suffix is 999, so the suggested identifier is `SCH1000`, which is
already present in `existing` — the uniqueness guarantee fails. -/
theorem suggestIdentifier_collision :
    suggestIdentifier ["SCH999", "SCH1000"] "SCH" 3 = "SCH1000" ∧
    "SCH1000" ∈ ["SCH999", "SCH1000"] := by
  exact ⟨by decide, by decide⟩

/-! ## C6: the availability generator -/

/-- Closed form of the hour-block loop, given enough fuel. -/
theorem slotTimesAux_eq : ∀ (fuel cur e : Nat), (e - cur) / 60 ≤ fuel →
    slotTimesAux cur e fuel =
      (List.range ((e - cur) / 60)).map (fun k => cur + 60 * k) := by
  intro fuel
  induction fuel with
  | zero =>
    intro cur e h
    have h0 : (e - cur) / 60 = 0 := by omega
    simp [slotTimesAux, h0]
  | succ m ih =>
    intro cur e h
    by_cases hc : cur + 60 ≤ e
    · have hd : (e - cur) / 60 = (e - (cur + 60)) / 60 + 1 := by omega
      rw [slotTimesAux, if_pos hc, ih (cur + 60) e (by omega), hd,
        List.range_succ_eq_map]
      simp only [List.map_cons, List.map_map, Nat.add_zero, Nat.mul_zero,
        List.cons.injEq, true_and]
      apply List.map_congr_left
      intro k _
      simp [Function.comp]
      omega
    · have h0 : (e - cur) / 60 = 0 := by omega
      rw [slotTimesAux, if_neg hc]
      simp [h0]

/-- Closed form of `slotTimes`. -/
theorem slotTimes_eq (s e : Nat) :
    slotTimes s e = (List.range ((e - s) / 60)).map (fun k => s + 60 * k) :=
  slotTimesAux_eq e s e (le_trans (Nat.div_le_self _ _) (Nat.sub_le e s))

/-- C6: `_build_professor_slots` emits, for each weekday Monday..Friday in
that order, one slot per whole one-hour block from `office_start`, exactly
those whose end does not exceed `office_end`; a window shorter than one
hour (in particular `office_start ≥ office_end`) yields no slots, and an
exactly-one-hour window yields one slot per day, 5 in total. -/
theorem buildProfessorSlots_spec (p : Professor) :
    buildProfessorSlots p =
      weekdays.flatMap (fun d =>
        (List.range ((p.office_end - p.office_start) / 60)).map
          (fun k => (d, timeLabel (p.office_start + 60 * k)))) ∧
    (∀ d t, (d, t) ∈ buildProfessorSlots p ↔
      d ∈ weekdays ∧ ∃ k, p.office_start + 60 * k + 60 ≤ p.office_end ∧
        t = timeLabel (p.office_start + 60 * k)) ∧
    (p.office_end - p.office_start < 60 → buildProfessorSlots p = []) ∧
    (p.office_end = p.office_start + 60 →
      buildProfessorSlots p = weekdays.map (fun d => (d, timeLabel p.office_start)) ∧
      (buildProfessorSlots p).length = 5) := by
  have hmain : buildProfessorSlots p =
      weekdays.flatMap (fun d =>
        (List.range ((p.office_end - p.office_start) / 60)).map
          (fun k => (d, timeLabel (p.office_start + 60 * k)))) := by
    rw [buildProfessorSlots]
    by_cases hge : p.office_start ≥ p.office_end
    · have h0 : (p.office_end - p.office_start) / 60 = 0 := by omega
      rw [if_pos hge, h0]
      simp
    · rw [if_neg hge, slotTimes_eq]
      simp only [List.map_map]
      rfl
  refine ⟨hmain, ?_, ?_, ?_⟩
  · intro d t
    rw [hmain]
    simp only [List.mem_flatMap, List.mem_map, List.mem_range, Prod.mk.injEq]
    constructor
    · rintro ⟨d2, hd2, k, hk, hdeq, hteq⟩
      subst hdeq
      exact ⟨hd2, k, by omega, hteq.symm⟩
    · rintro ⟨hd, k, hk, hteq⟩
      exact ⟨d, hd, k, by omega, rfl, hteq.symm⟩
  · intro hsub
    rw [hmain]
    have h0 : (p.office_end - p.office_start) / 60 = 0 := by omega
    rw [h0]
    simp
  · intro hone
    have h1 : (p.office_end - p.office_start) / 60 = 1 := by omega
    constructor
    · rw [hmain, h1]
      have hr : List.range 1 = [0] := rfl
      simp [weekdays, hr]
    · rw [hmain, h1]
      simp [weekdays]

/-- Witness for C6 at a concrete professor (09:00-10:00, one slot per day). -/
theorem buildProfessorSlots_spec_witness :
    buildProfessorSlots profG = weekdays.map (fun d => (d, timeLabel 540)) ∧
    (buildProfessorSlots profG).length = 5 :=
  (buildProfessorSlots_spec profG).2.2.2 rfl

/-! ## C1 and C2: the consumed-previous-room fallback of `_assign_room` -/

/-- C1 failing run: with one room and two professors sharing the 09:00
Monday slot, the previous assignment of subject `B` leads `_assign_room`
into its final `return current_room` fallback, and the output contains two
distinct assignments occupying room `R1` at Monday 09:00 — the room half
of the no-double-booking invariant is violated. -/
theorem generateSchedule_double_books_room :
    generateSchedule [subjA, subjB] [profP1, profP2] [roomR1] [prevB] =
      Except.ok { entries := [entryBout, entryAout], skipped_no_prof := [],
                  skipped_no_slot := [], skipped_no_room := [] } ∧
    entryBout ≠ entryAout ∧
    entryBout.room_number = entryAout.room_number ∧
    entryBout.day = entryAout.day ∧
    entryBout.time = entryAout.time := by
  refine ⟨by rfl, by decide, rfl, rfl, rfl⟩

/-- C2 failing invocation: every room of the index is consumed at the slot
and the previous room is consumed as well, yet `_assign_room` returns the
(consumed) previous room instead of none, and the engine records no
`NO_AVAILABLE_ROOM` skip in that run. -/
theorem assignRoom_consumed_previous_room_not_skipped :
    tryAllRooms "Monday" "09:00" rbtC2 usedAllC2 = none ∧
    (pyStrip tentB.room_number, "Monday", "09:00") ∈ usedAllC2 ∧
    (assignRoom tentB "Monday" "09:00" sbcC2 rbtC2 usedAllC2).1 = "R1" ∧
    (assignRoom tentB "Monday" "09:00" sbcC2 rbtC2 usedAllC2).1 ≠ "" ∧
    (generateSchedule [subjA, subjB] [profP1, profP2] [roomR1] [prevB]).toOption.map
      (fun r => r.skipped_no_room) = some [] := by
  refine ⟨by rfl, by decide, by rfl, by decide, by rfl⟩

/-! ## C10: the previous-room keep branch ignores the room snapshot -/

/-- C10: the keep branch of `_assign_room` tests only non-emptiness and
non-consumption of the previous room — for any room index whatsoever the
previous room is returned — and consequently a previous assignment whose
room number does not occur in the rooms snapshot flows through an entire
engine run into the output. -/
theorem assignRoom_previous_room_unchecked :
    (∀ (entry : ScheduleEntry) (day tim : String)
        (sbc : List (String × Subject)) (rbt : List (String × List Room))
        (used : List (String × String × String)),
      pyStrip entry.room_number ≠ "" →
      (pyStrip entry.room_number, day, tim) ∉ used →
      (assignRoom entry day tim sbc rbt used).1 = pyStrip entry.room_number) ∧
    (generateSchedule [subjG] [profG] [roomG] [prevG] =
      Except.ok { entries := [entryGout], skipped_no_prof := [],
                  skipped_no_slot := [], skipped_no_room := [] } ∧
     entryGout.room_number = "GHOST" ∧
     [roomG].all (fun r => r.number != "GHOST") = true) := by
  constructor
  · intro entry day tim sbc rbt used h1 h2
    simp only [assignRoom]
    rw [if_pos ⟨h1, h2⟩]
  · exact ⟨by rfl, rfl, by decide⟩

/-- Witness for C10's universal branch at a concrete input: the ghost
previous room is returned even for an empty room index. -/
theorem assignRoom_previous_room_unchecked_witness :
    (assignRoom prevG "Monday" "09:00" [] [] []).1 = pyStrip prevG.room_number :=
  assignRoom_previous_room_unchecked.1 prevG "Monday" "09:00" [] [] []
    (by decide) (by decide)

/-! ## C4: the per-type capacity fallback of `_assign_room` -/

/-- C4 (amended): within one candidate type, the capacity-qualifying rooms
are scanned first and the first free one wins; when qualifying rooms exist
but all are consumed the scan moves to the next candidate type (the
under-capacity rooms of this type are not tried at this stage); the
fall-back to all rooms of the type happens only when no room of the type
meets the required capacity. -/
theorem tryTypes_capacity_fallback_policy (req : Int) (day tim : String)
    (rbt : List (String × List Room)) (used : List (String × String × String))
    (t : String) (rest : List String) :
    (((dictGet rbt t).getD []).filter (fun r => req ≤ r.capacity) ≠ [] →
      (∀ r ∈ ((dictGet rbt t).getD []).filter (fun r => req ≤ r.capacity),
        (r.number, day, tim) ∈ used) →
      tryTypes req day tim rbt used (t :: rest) =
        tryTypes req day tim rbt used rest) ∧
    (∀ r : Room,
      (((dictGet rbt t).getD []).filter (fun r => req ≤ r.capacity)).find?
          (fun r => !decide ((r.number, day, tim) ∈ used)) = some r →
      tryTypes req day tim rbt used (t :: rest) = some r.number) ∧
    (((dictGet rbt t).getD []).filter (fun r => req ≤ r.capacity) = [] →
      (dictGet rbt t).getD [] ≠ [] →
      tryTypes req day tim rbt used (t :: rest) =
        match ((dictGet rbt t).getD []).find?
            (fun r => !decide ((r.number, day, tim) ∈ used)) with
        | some r => some r.number
        | none => tryTypes req day tim rbt used rest) := by
  have hunfold : tryTypes req day tim rbt used (t :: rest) =
      (if ((dictGet rbt t).getD []).isEmpty then
        tryTypes req day tim rbt used rest
      else
        match (if (((dictGet rbt t).getD []).filter
                  (fun r => req ≤ r.capacity)).isEmpty
               then (dictGet rbt t).getD []
               else ((dictGet rbt t).getD []).filter
                 (fun r => req ≤ r.capacity)).find?
            (fun r => !decide ((r.number, day, tim) ∈ used)) with
        | some r => some r.number
        | none => tryTypes req day tim rbt used rest) := rfl
  refine ⟨?_, ?_, ?_⟩
  · intro hqne hall
    have hrne : (dictGet rbt t).getD [] ≠ [] := by
      intro h0
      rw [h0] at hqne
      simp at hqne
    have hre : ((dictGet rbt t).getD []).isEmpty = false :=
      List.isEmpty_eq_false.mpr hrne
    have hqe : (((dictGet rbt t).getD []).filter
        (fun r => req ≤ r.capacity)).isEmpty = false :=
      List.isEmpty_eq_false.mpr hqne
    have hnone : (((dictGet rbt t).getD []).filter
        (fun r => req ≤ r.capacity)).find?
          (fun r => !decide ((r.number, day, tim) ∈ used)) = none := by
      rw [List.find?_eq_none]
      intro x hx
      have hx2 : decide ((x.number, day, tim) ∈ used) = true :=
        decide_eq_true (hall x hx)
      simp [hx2]
    rw [hunfold, hre]
    simp only [Bool.false_eq_true, if_false, hqe, hnone]
  · intro r hf
    have hqne : ((dictGet rbt t).getD []).filter (fun r => req ≤ r.capacity) ≠ [] := by
      intro h0
      rw [h0] at hf
      simp at hf
    have hrne : (dictGet rbt t).getD [] ≠ [] := by
      intro h0
      rw [h0] at hqne
      simp at hqne
    have hre : ((dictGet rbt t).getD []).isEmpty = false :=
      List.isEmpty_eq_false.mpr hrne
    have hqe : (((dictGet rbt t).getD []).filter
        (fun r => req ≤ r.capacity)).isEmpty = false :=
      List.isEmpty_eq_false.mpr hqne
    rw [hunfold, hre]
    simp only [Bool.false_eq_true, if_false, hqe, hf]
  · intro hq hrne
    have hre : ((dictGet rbt t).getD []).isEmpty = false :=
      List.isEmpty_eq_false.mpr hrne
    have hqe : (((dictGet rbt t).getD []).filter
        (fun r => req ≤ r.capacity)).isEmpty = true := by
      rw [List.isEmpty_iff, hq]
    rw [hunfold, hre]
    simp only [Bool.false_eq_true, if_false, hqe, if_true]

/-- Witness for the amended C4: with one lecture room free and qualifying,
the per-type scan returns it. -/
theorem tryTypes_capacity_fallback_witness :
    tryTypes 10 "Monday" "09:00" rbtC2 [] ["Lecture"] = some "R1" := by
  have h := (tryTypes_capacity_fallback_policy 10 "Monday" "09:00" rbtC2 []
    "Lecture" []).2.1 roomR1 (by decide)
  simpa using h

/-- C4 counterexample: the required type `T` has a free (under-capacity)
room `A`, and its only capacity-qualifying room `Bb` is consumed; the claim
predicts the fallback stays within type `T` and picks `A`, but the code
moves on to type `U` and returns `Cc`. -/
theorem tryTypes_skips_type_counterexample :
    (assignRoom entryC4 "Monday" "09:00" [("S", subjC4)] rbtC4 usedC4).1 = "Cc" ∧
    subjC4.format_ = "T" ∧
    roomUC.lec_sem = "U" ∧ roomUC.number = "Cc" ∧
    roomTA ∈ (dictGet rbtC4 "T").getD [] ∧
    roomTA.lec_sem = "T" ∧ roomTA.number = "A" ∧
    ("A", "Monday", "09:00") ∉ usedC4 := by
  refine ⟨by rfl, rfl, rfl, rfl, by decide, rfl, rfl, by decide⟩

/-! ## C5: capacity preference -/

/-- `find?` on a capacity-sorted list returns a room of minimal capacity
among those satisfying the predicate. -/
theorem find?_first_min_capacity {p : Room → Bool} :
    ∀ {l : List Room} {r : Room},
      l.Pairwise (fun a b => a.capacity ≤ b.capacity) →
      l.find? p = some r →
      ∀ x ∈ l, p x = true → r.capacity ≤ x.capacity := by
  intro l
  induction l with
  | nil =>
    intro r _ hf
    simp at hf
  | cons a t ih =>
    intro r hp hf x hx hpx
    rw [List.pairwise_cons] at hp
    by_cases hpa : p a = true
    · rw [List.find?_cons_of_pos _ hpa] at hf
      cases hf
      rcases List.mem_cons.mp hx with rfl | hx2
      · exact le_refl _
      · exact hp.1 x hx2
    · rw [List.find?_cons_of_neg _ hpa] at hf
      rcases List.mem_cons.mp hx with rfl | hx2
      · exact absurd hpx hpa
      · exact ih hp.2 hf x hx2 hpx

/-- The candidate-type accumulator keeps its head: folding further keys
onto `a :: acc` yields a list starting with `a`. -/
theorem foldl_addKeys_head (l : List String) :
    ∀ (a : String) (acc : List String), ∃ tail,
      l.foldl (fun acc k => if k ∈ acc then acc else acc ++ [k]) (a :: acc) =
        a :: tail := by
  induction l with
  | nil => intro a acc; exact ⟨acc, rfl⟩
  | cons k t ih =>
    intro a acc
    rw [List.foldl_cons]
    by_cases hk : k ∈ a :: acc
    · rw [if_pos hk]
      exact ih a acc
    · rw [if_neg hk]
      have hc : (a :: acc) ++ [k] = a :: (acc ++ [k]) := by simp
      rw [hc]
      exact ih a (acc ++ [k])

/-- C5 (amended): when the previous-room keep branch is not taken (previous
room empty or already consumed at the slot) and the subject's required type
has a free room meeting the required capacity, `_assign_room` selects a
free capacity-qualifying room of that type of minimal capacity among the
free qualifying ones (the type's rooms being capacity-sorted, as the room
index guarantees).  When the keep branch fires, capacity preference does
not apply (see the counterexample). -/
theorem assignRoom_smallest_sufficient_room
    (entry : ScheduleEntry) (day tim : String)
    (sbc : List (String × Subject)) (rbt : List (String × List Room))
    (used : List (String × String × String)) (subj : Subject)
    (hprev : pyStrip entry.room_number = "" ∨
      (pyStrip entry.room_number, day, tim) ∈ used)
    (hsubj : dictGet sbc entry.subject_code = some subj)
    (hfmt : subj.format_ ≠ "")
    (hsorted : ((dictGet rbt subj.format_).getD []).Pairwise
      (fun a b => a.capacity ≤ b.capacity))
    (hfree : ∃ r ∈ (dictGet rbt subj.format_).getD [],
      subj.capacity ≤ r.capacity ∧ (r.number, day, tim) ∉ used) :
    ∃ r ∈ (dictGet rbt subj.format_).getD [],
      (assignRoom entry day tim sbc rbt used).1 = r.number ∧
      subj.capacity ≤ r.capacity ∧ (r.number, day, tim) ∉ used ∧
      ∀ r2 ∈ (dictGet rbt subj.format_).getD [],
        subj.capacity ≤ r2.capacity → (r2.number, day, tim) ∉ used →
        r.capacity ≤ r2.capacity := by
  have hcond : ¬(pyStrip entry.room_number ≠ "" ∧
      (pyStrip entry.room_number, day, tim) ∉ used) := by
    rcases hprev with h | h
    · intro hc
      exact hc.1 h
    · intro hc
      exact hc.2 h
  -- the first free qualifying room exists
  have hsome : ((((dictGet rbt subj.format_).getD []).filter
      (fun r => subj.capacity ≤ r.capacity)).find?
        (fun r => !decide ((r.number, day, tim) ∈ used))).isSome = true := by
    rw [List.find?_isSome]
    obtain ⟨r, hrmem, hrcap, hrfree⟩ := hfree
    refine ⟨r, List.mem_filter.mpr ⟨hrmem, decide_eq_true hrcap⟩, ?_⟩
    simp [hrfree]
  obtain ⟨r, hfind⟩ := Option.isSome_iff_exists.mp hsome
  have hrmem2 := List.mem_of_find?_eq_some hfind
  have hrpred := List.find?_some hfind
  have hrmem : r ∈ (dictGet rbt subj.format_).getD [] :=
    (List.mem_filter.mp hrmem2).1
  have hrcap : subj.capacity ≤ r.capacity :=
    of_decide_eq_true (List.mem_filter.mp hrmem2).2
  have hrfree : (r.number, day, tim) ∉ used := by
    intro hin
    rw [decide_eq_true hin] at hrpred
    simp at hrpred
  -- the head of the candidate types is the required format
  obtain ⟨tail, htail⟩ := foldl_addKeys_head (rbt.map Prod.fst) subj.format_ []
  -- tryTypes selects r
  have htt : tryTypes subj.capacity day tim rbt used (subj.format_ :: tail) =
      some r.number :=
    (tryTypes_capacity_fallback_policy subj.capacity day tim rbt used
      subj.format_ tail).2.1 r hfind
  refine ⟨r, hrmem, ?_, hrcap, hrfree, ?_⟩
  · simp only [assignRoom, hsubj]
    rw [if_neg hcond]
    have hfmt2 : ¬subj.format_ = "" := hfmt
    simp only [hfmt2, if_false, ite_false]
    rw [htail, htt]
  · intro r2 hr2mem hr2cap hr2free
    refine find?_first_min_capacity (hsorted.filter _) hfind r2 ?_ ?_
    · exact List.mem_filter.mpr ⟨hr2mem, decide_eq_true hr2cap⟩
    · simp [hr2free]

/-- Witness for the amended C5: with rooms `S1` (capacity 20) and `B1`
(capacity 100) of type `T` both free and a requirement of 10, the
smallest sufficient room `S1` is selected. -/
theorem assignRoom_smallest_sufficient_witness :
    ∃ r ∈ (dictGet rbtC5 "T").getD [],
      (assignRoom entryC5b "Monday" "09:00" sbcC5 rbtC5 []).1 = r.number ∧
      subjC5.capacity ≤ r.capacity ∧ (r.number, "Monday", "09:00") ∉ ([] : List (String × String × String)) ∧
      ∀ r2 ∈ (dictGet rbtC5 "T").getD [],
        subjC5.capacity ≤ r2.capacity → (r2.number, "Monday", "09:00") ∉ ([] : List (String × String × String)) →
        r.capacity ≤ r2.capacity := by
  have h := assignRoom_smallest_sufficient_room entryC5b "Monday" "09:00"
    sbcC5 rbtC5 [] subjC5 (Or.inl (by decide)) (by rfl) (by decide)
    (by decide) ⟨roomSmall, by decide, by decide, by decide⟩
  exact h

/-- C5 counterexample: the previous-room keep branch retains the larger
room `B1` (capacity 100) although the qualifying smaller room `S1`
(capacity 20) of the required type is free at the slot. -/
theorem assignRoom_keeps_larger_previous_room :
    (assignRoom entryC5 "Monday" "09:00" sbcC5 rbtC5 []).1 = "B1" ∧
    roomBig.number = "B1" ∧ roomSmall.number = "S1" ∧
    roomSmall ∈ (dictGet rbtC5 "T").getD [] ∧
    subjC5.capacity ≤ roomSmall.capacity ∧
    roomSmall.capacity < roomBig.capacity ∧
    ("S1", "Monday", "09:00") ∉ ([] : List (String × String × String)) ∧
    subjC5.format_ = "T" := by
  refine ⟨by rfl, rfl, rfl, by decide, by decide, by decide, by decide, rfl⟩

/-! ## C7: structural failures and the shape of a successful run -/

/-- C7: the run aborts with a distinct structural error exactly when the
subjects, professors or rooms snapshot is empty, no subject is eligible,
or the pass produces no entries; otherwise it returns the new entries
sorted by schedule id (ascending) together with the three skip buckets. -/
theorem generateSchedule_structural (subjects : List Subject)
    (professors : List Professor) (rooms : List Room)
    (prev : List ScheduleEntry) :
    (generateSchedule subjects professors rooms prev =
        Except.error StructuralError.noSubjects ↔ subjects = []) ∧
    (generateSchedule subjects professors rooms prev =
        Except.error StructuralError.noProfessors ↔
      subjects ≠ [] ∧ professors = []) ∧
    (generateSchedule subjects professors rooms prev =
        Except.error StructuralError.noRooms ↔
      subjects ≠ [] ∧ professors ≠ [] ∧ rooms = []) ∧
    (generateSchedule subjects professors rooms prev =
        Except.error StructuralError.noEligibleSubjects ↔
      subjects ≠ [] ∧ professors ≠ [] ∧ rooms ≠ [] ∧
      (eligiblePairs subjects professors).1 = []) ∧
    (generateSchedule subjects professors rooms prev =
        Except.error StructuralError.noAssignments ↔
      subjects ≠ [] ∧ professors ≠ [] ∧ rooms ≠ [] ∧
      (eligiblePairs subjects professors).1 ≠ [] ∧
      (runPass subjects professors rooms prev).new_entries = []) ∧
    (∀ res, generateSchedule subjects professors rooms prev = Except.ok res →
      res.entries =
        stableSort entryIdLe (runPass subjects professors rooms prev).new_entries ∧
      res.entries.Pairwise (fun a b => entryIdLe a b = true) ∧
      res.entries.Perm (runPass subjects professors rooms prev).new_entries ∧
      res.skipped_no_prof = (eligiblePairs subjects professors).2 ∧
      res.skipped_no_slot = (runPass subjects professors rooms prev).skipped_no_slot ∧
      res.skipped_no_room = (runPass subjects professors rooms prev).skipped_no_room) := by
  by_cases h1 : subjects = []
  · have hg : generateSchedule subjects professors rooms prev =
        Except.error StructuralError.noSubjects := by
      rw [generateSchedule, if_pos (List.isEmpty_iff.mpr h1)]
    refine ⟨?_, ?_, ?_, ?_, ?_, ?_⟩ <;> rw [hg] <;> simp [h1]
  · by_cases h2 : professors = []
    · have hg : generateSchedule subjects professors rooms prev =
          Except.error StructuralError.noProfessors := by
        rw [generateSchedule, if_neg (by simp [h1]), if_pos (List.isEmpty_iff.mpr h2)]
      refine ⟨?_, ?_, ?_, ?_, ?_, ?_⟩ <;> rw [hg] <;> simp [h1, h2]
    · by_cases h3 : rooms = []
      · have hg : generateSchedule subjects professors rooms prev =
            Except.error StructuralError.noRooms := by
          rw [generateSchedule, if_neg (by simp [h1]), if_neg (by simp [h2]),
            if_pos (List.isEmpty_iff.mpr h3)]
        refine ⟨?_, ?_, ?_, ?_, ?_, ?_⟩ <;> rw [hg] <;> simp [h1, h2, h3]
      · by_cases h4 : (eligiblePairs subjects professors).1 = []
        · have hg : generateSchedule subjects professors rooms prev =
              Except.error StructuralError.noEligibleSubjects := by
            rw [generateSchedule, if_neg (by simp [h1]), if_neg (by simp [h2]),
              if_neg (by simp [h3]), if_pos (List.isEmpty_iff.mpr h4)]
          refine ⟨?_, ?_, ?_, ?_, ?_, ?_⟩ <;> rw [hg] <;> simp [h1, h2, h3, h4]
        · by_cases h5 : (runPass subjects professors rooms prev).new_entries = []
          · have hg : generateSchedule subjects professors rooms prev =
                Except.error StructuralError.noAssignments := by
              simp only [generateSchedule]
              rw [if_neg (by simp [h1]), if_neg (by simp [h2]),
                if_neg (by simp [h3]), if_neg (by simp [h4]),
                if_pos (List.isEmpty_iff.mpr h5)]
            refine ⟨?_, ?_, ?_, ?_, ?_, ?_⟩ <;> rw [hg] <;> simp [h1, h2, h3, h4, h5]
          · have hg : generateSchedule subjects professors rooms prev =
                Except.ok
                  { entries := stableSort entryIdLe
                      (runPass subjects professors rooms prev).new_entries,
                    skipped_no_prof := (eligiblePairs subjects professors).2,
                    skipped_no_slot :=
                      (runPass subjects professors rooms prev).skipped_no_slot,
                    skipped_no_room :=
                      (runPass subjects professors rooms prev).skipped_no_room } := by
              simp only [generateSchedule]
              rw [if_neg (by simp [h1]), if_neg (by simp [h2]),
                if_neg (by simp [h3]), if_neg (by simp [h4]),
                if_neg (by simp [h5])]
            refine ⟨?_, ?_, ?_, ?_, ?_, ?_⟩
            · rw [hg]; simp [h1]
            · rw [hg]; simp [h1, h2]
            · rw [hg]; simp [h1, h2, h3]
            · rw [hg]; simp [h1, h2, h3, h4]
            · rw [hg]; simp [h1, h2, h3, h4, h5]
            · intro res hres
              rw [hg] at hres
              injection hres with h
              subst h
              refine ⟨rfl, ?_, ?_, rfl, rfl, rfl⟩
              · exact stableSort_pairwise entryIdLe_total entryIdLe_trans _
              · exact stableSort_perm entryIdLe _

/-- Witness for C7: the empty-subjects structural failure, and the sorted
sorted-output facts at a concrete successful run. -/
theorem generateSchedule_structural_witness :
    generateSchedule [] [] [] [] = Except.error StructuralError.noSubjects ∧
    resW.entries.Pairwise (fun a b => entryIdLe a b = true) ∧
    resW.entries.Perm (runPass [subjW] [profW] [roomW] []).new_entries := by
  refine ⟨(generateSchedule_structural [] [] [] []).1.mpr rfl, ?_, ?_⟩
  · exact ((generateSchedule_structural [subjW] [profW] [roomW] []).2.2.2.2.2
      resW (by rfl)).2.1
  · exact ((generateSchedule_structural [subjW] [profW] [roomW] []).2.2.2.2.2
      resW (by rfl)).2.2.1

/-! ## C8: a room failure commits nothing for the professor -/

/-- C8: whenever an iteration of the subject loop records a
`NO_AVAILABLE_ROOM` skip, the professor-slot consumption set (and the
output list) is left untouched, so the resolved slot remains available to
later subjects of the same professor; conversely the consumption set only
ever grows together with a successfully roomed assignment. -/
theorem stepSubject_no_room_no_commit
    (ps : List (String × List (String × String)))
    (ee : List (String × ScheduleEntry))
    (sbc : List (String × Subject))
    (rbt : List (String × List Room))
    (st : GenState) (s : Subject) (p : Professor) :
    ((stepSubject ps ee sbc rbt st (s, p)).skipped_no_room ≠ st.skipped_no_room →
      (stepSubject ps ee sbc rbt st (s, p)).used_prof_slots = st.used_prof_slots ∧
      (stepSubject ps ee sbc rbt st (s, p)).new_entries = st.new_entries) ∧
    ((stepSubject ps ee sbc rbt st (s, p)).used_prof_slots ≠ st.used_prof_slots →
      ∃ day tim e,
        (stepSubject ps ee sbc rbt st (s, p)).used_prof_slots =
          st.used_prof_slots ++ [(p.prof_id, day, tim)] ∧
        (stepSubject ps ee sbc rbt st (s, p)).new_entries =
          st.new_entries ++ [e] ∧
        e.room_number ≠ "" ∧ e.day = day ∧ e.time = tim) := by
  simp only [stepSubject]
  split
  · exact ⟨fun _ => ⟨rfl, rfl⟩, fun hne => absurd rfl hne⟩
  · split
    · exact ⟨fun _ => ⟨rfl, rfl⟩, fun hne => absurd rfl hne⟩
    · rename_i day tim heq
      split
      · exact ⟨fun _ => ⟨rfl, rfl⟩, fun hne => absurd rfl hne⟩
      · rename_i hroom
        refine ⟨fun hne => absurd rfl hne, fun _ => ⟨day, tim, _, rfl, rfl, hroom, rfl, rfl⟩⟩

/-- Witness for C8: a concrete iteration with an empty room index records a
`NO_AVAILABLE_ROOM` skip and leaves the professor-slot set and output
untouched. -/
theorem stepSubject_no_room_no_commit_witness :
    (stepSubject psC8 [] [] [] stC8 (subjX, profP1)).skipped_no_room = ["X"] ∧
    (stepSubject psC8 [] [] [] stC8 (subjX, profP1)).used_prof_slots = [] ∧
    (stepSubject psC8 [] [] [] stC8 (subjX, profP1)).new_entries = [] := by
  have h := (stepSubject_no_room_no_commit psC8 [] [] [] stC8 subjX profP1).1
    (by decide)
  exact ⟨by rfl, h.1, h.2⟩

/-! ## C9: validity of every output entry -/

/-- Every eligible pair comes from a snapshot subject with a non-empty
professor link that resolves in `professors_by_id` to the paired professor. -/
theorem eligiblePairs_mem {subjects : List Subject} {professors : List Professor}
    {s : Subject} {p : Professor}
    (h : (s, p) ∈ (eligiblePairs subjects professors).1) :
    s ∈ subjects ∧ s.professor_id ≠ "" ∧
    dictGet (professors.map (fun q => (q.prof_id, q))) s.professor_id = some p := by
  suffices haux : ∀ (l : List Subject)
      (acc : List (Subject × Professor) × List String),
      (s, p) ∈ (l.foldl (eligStep (professors.map (fun q => (q.prof_id, q)))) acc).1 →
      (s, p) ∈ acc.1 ∨ (s ∈ l ∧ s.professor_id ≠ "" ∧
        dictGet (professors.map (fun q => (q.prof_id, q))) s.professor_id = some p) by
    rcases haux subjects ([], []) h with h' | h'
    · simp at h'
    · exact h'
  intro l
  induction l with
  | nil => intro acc h'; exact Or.inl h'
  | cons x t ih =>
    intro acc h'
    rw [List.foldl_cons] at h'
    rcases ih _ h' with h'' | h''
    · rcases hdg : dictGet (professors.map (fun q => (q.prof_id, q)))
          x.professor_id with _ | q
      · simp only [eligStep, hdg] at h''
        exact Or.inl h''
      · by_cases hxe : x.professor_id = ""
        · simp only [eligStep, hdg, if_pos hxe] at h''
          exact Or.inl h''
        · simp only [eligStep, hdg, if_neg hxe] at h''
          rcases List.mem_append.mp h'' with h3 | h3
          · exact Or.inl h3
          · have h4 : (s, p) = (x, q) := List.mem_singleton.mp h3
            have hs : s = x := congrArg Prod.fst h4
            have hp : p = q := congrArg Prod.snd h4
            subst hs
            subst hp
            exact Or.inr ⟨List.mem_cons_self _ _, hxe, hdg⟩
    · exact Or.inr ⟨List.mem_cons_of_mem x h''.1, h''.2.1, h''.2.2⟩

/-- A slot resolved by `resolveSlot` belongs to the professor's availability
list stored in `professor_slots`. -/
theorem resolveSlot_mem {ps : List (String × List (String × String))}
    {used : List (String × String × String)} {p : Professor}
    {entry : ScheduleEntry} {day tim : String}
    (h : resolveSlot ps used p entry = some (day, tim)) :
    (day, tim) ∈ (dictGet ps p.prof_id).getD [] := by
  simp only [resolveSlot] at h
  by_cases hc : entry.day ≠ "" ∧ entry.time ≠ "" ∧
      (p.prof_id, entry.day, entry.time) ∉ used ∧
      (entry.day, entry.time) ∈ (dictGet ps p.prof_id).getD []
  · rw [if_pos hc] at h
    have h2 : (some (entry.day, entry.time) : Option (String × String)) =
        some (day, tim) := h
    have h3 : (entry.day, entry.time) = (day, tim) := Option.some.inj h2
    rw [← h3]
    exact hc.2.2.2
  · rw [if_neg hc] at h
    have h2 : nextAvailableProfessorSlot p.prof_id
        ((dictGet ps p.prof_id).getD []) used = some (day, tim) := h
    rw [nextAvailableProfessorSlot] at h2
    exact List.mem_of_find?_eq_some h2

/-- The entry produced by `makeEntry` carries the subject's code and the
professor's id. -/
theorem makeEntry_fields (ee : List (String × ScheduleEntry))
    (taken : List String) (s : Subject) (p : Professor) :
    (makeEntry ee taken s p).1.subject_code = s.code ∧
    (makeEntry ee taken s p).1.professor_id = p.prof_id := by
  simp only [makeEntry]
  split
  · exact ⟨rfl, rfl⟩
  · split
    · exact ⟨rfl, rfl⟩
    · exact ⟨rfl, rfl⟩

/-- C9: every assignment of a successful run carries a non-empty professor
id that resolves to a snapshot professor whose generated availability
contains the assignment's (day, time), and a snapshot subject whose code
and professor link match the assignment. -/
theorem generateSchedule_entries_valid (subjects : List Subject)
    (professors : List Professor) (rooms : List Room)
    (prev : List ScheduleEntry) (res : ScheduleResult)
    (h : generateSchedule subjects professors rooms prev = Except.ok res) :
    ∀ e ∈ res.entries, EntryInv subjects professors e := by
  have hperm := ((generateSchedule_structural subjects professors rooms
    prev).2.2.2.2.2 res h).2.2.1
  have hrun : runPass subjects professors rooms prev =
      ((eligiblePairs subjects professors).1).foldl
        (stepSubject (professors.map (fun q => (q.prof_id, buildProfessorSlots q)))
          (prev.map (fun e => (e.subject_code, e)))
          (subjects.map (fun s2 => (s2.code, s2)))
          (buildRoomsByType rooms))
        (initState prev) := rfl
  have hP : ∀ e2 ∈ (((eligiblePairs subjects professors).1).foldl
      (stepSubject (professors.map (fun q => (q.prof_id, buildProfessorSlots q)))
        (prev.map (fun e => (e.subject_code, e)))
        (subjects.map (fun s2 => (s2.code, s2)))
        (buildRoomsByType rooms))
      (initState prev)).new_entries, EntryInv subjects professors e2 := by
    refine @foldl_induction (Subject × Professor) GenState
      (fun st => ∀ e2 ∈ st.new_entries, EntryInv subjects professors e2)
      (fun sp => sp.1 ∈ subjects ∧ sp.1.professor_id ≠ "" ∧
        dictGet (professors.map (fun q => (q.prof_id, q))) sp.1.professor_id =
          some sp.2)
      _ _ ?_ (initState prev) ?_ ?_
    · intro st sp hQ hPrev
      obtain ⟨s, p⟩ := sp
      simp only [stepSubject]
      split
      · exact hPrev
      · split
        · exact hPrev
        · rename_i day tim heq
          split
          · exact hPrev
          · intro e2 he2
            rcases List.mem_append.mp he2 with h3 | h3
            · exact hPrev e2 h3
            · have he2eq := List.mem_singleton.mp h3
              subst he2eq
              obtain ⟨hsmem, hsid, hdict⟩ := hQ
              obtain ⟨q, hqmem, hqid, hqeq⟩ := dictGet_map_eq_some hdict
              subst hqeq
              have hmem := resolveSlot_mem heq
              rcases hdg : dictGet (professors.map
                  (fun q2 => (q2.prof_id, buildProfessorSlots q2)))
                  q.prof_id with _ | l
              · rw [hdg] at hmem
                simp at hmem
              · rw [hdg] at hmem
                rw [Option.getD_some] at hmem
                obtain ⟨q2, hq2mem, hq2id, hq2slots⟩ := dictGet_map_eq_some hdg
                refine ⟨?_, ?_, ?_⟩
                · show q.prof_id ≠ ""
                  rw [hqid]
                  exact hsid
                · refine ⟨q2, hq2mem, ?_, ?_⟩
                  · exact hq2id
                  · show ((day, tim) : String × String) ∈ buildProfessorSlots q2
                    rw [hq2slots]
                    exact hmem
                · refine ⟨s, hsmem, ?_, ?_⟩
                  · exact ((makeEntry_fields _ _ s q).1).symm
                  · exact hqid.symm
    · intro sp hsp
      obtain ⟨s, p⟩ := sp
      exact eligiblePairs_mem hsp
    · intro e2 he2
      simp [initState] at he2
  intro e he
  exact hP e (by rw [← hrun]; exact hperm.mem_iff.mp he)

/-- Witness for C9 at a concrete successful run with one subject. -/
theorem generateSchedule_entries_valid_witness :
    EntryInv [subjW] [profW]
      { schedule_id := "SCH001", subject_code := "W", professor_id := "PW",
        room_number := "RW", day := "Monday", time := "09:00" } :=
  generateSchedule_entries_valid [subjW] [profW] [roomW] [] resC9 (by rfl)
    _ (by decide)
